import Mathlib

/-!
# HydroSense dashboard — verification of the simulated-sensor core

Shallow embedding of the logic of `src/App.jsx`: the synthetic signal
generator (`nextSample`), the capped history (`appendCap`, seed loop, forced
refill), the threshold evaluator (`evaluate`, `overallOk`, `alerts`) and the
sparkline path builder (`sparkPath`).

Modelling conventions:
* JS numbers are modelled as `ℚ` (the program only performs field arithmetic,
  comparisons, clamping and decimal rounding on them).
* `Math.random()`-derived draws are explicit parameters: each occurrence of
  `rand(a, b)` becomes a `ℚ` argument (constrained to `[a, b]` by hypotheses
  where a claim needs it), and each probabilistic branch
  (`Math.random() < p`) becomes a `Bool` argument.
* Timestamps (`new Date().toISOString()` / `Date.now()`) are opaque to the
  logic; they are modelled as `ℤ` parameters.
* `Number(v.toFixed(d))` is modelled by `roundTo d`; the string produced by
  `toFixed` (used in alert messages and path strings) by `formatFixed d`.
-/

namespace HydroSense

/-- Embeds `const clamp = (v, a, b) => Math.max(a, Math.min(b, v))`. -/
def clamp (v a b : ℚ) : ℚ := max a (min b v)

/-- Embeds `function approach(current, target, rate) { return current + (target - current) * rate }`. -/
def approach (current target rate : ℚ) : ℚ := current + (target - current) * rate

/-- Embeds `function jitter(prev, minDelta, maxDelta)`: the draw
`rand(minDelta, maxDelta)` is the explicit argument `d`, and the sign coin
`Math.random() < 0.5` is the Boolean `neg`. -/
def jitter (prev d : ℚ) (neg : Bool) : ℚ := prev + d * (if neg then -1 else 1)

/-- Embeds `Number(v.toFixed(d))`: round to `d` decimal places. -/
def roundTo (d : ℕ) (q : ℚ) : ℚ := ((round (q * (10 : ℚ) ^ d) : ℤ) : ℚ) / (10 : ℚ) ^ d

/-- Embeds the string `v.toFixed(d)` (as used by `format` and in `sparkPath`). -/
def formatFixed (d : ℕ) (q : ℚ) : String :=
  let n : ℤ := round (q * (10 : ℚ) ^ d)
  let sign := if n < 0 then "-" else ""
  let m := n.natAbs
  if d = 0 then sign ++ toString (m : ℕ) else
  let fs := toString (m % 10 ^ d)
  sign ++ toString (m / 10 ^ d) ++ "." ++ String.mk (List.replicate (d - fs.length) '0') ++ fs

/-- Embeds the JS number-to-string conversion of a template literal
(`${THRESHOLDS.pH.min}`, `${current.waterLevelPercent}`) for the values that
occur in alert messages: integers print without a decimal point, and every
non-integer value reaching an alert template is a multiple of 0.1 (thresholds
are literals like `6.5`; stored levels pass through `toFixed(1)`). -/
def jsNumStr (q : ℚ) : String := if q.den = 1 then toString q.num else formatFixed 1 q

/-- One sensor reading, `{timestamp, pH, turbidity, temperature, waterLevelPercent}`. -/
structure Sample where
  timestamp : ℤ
  pH : ℚ
  turbidity : ℚ
  temperature : ℚ
  waterLevelPercent : ℚ
deriving DecidableEq

/-- `{ min, max }` threshold pair (used for pH). -/
structure BoundMinMax where
  min : ℚ
  max : ℚ

/-- `{ max }` threshold (turbidity, temperature). -/
structure BoundMax where
  max : ℚ

/-- `{ min }` threshold (water level). -/
structure BoundMin where
  min : ℚ

/-- The `THRESHOLDS` configuration object. -/
structure Thresholds where
  pH : BoundMinMax
  turbidity : BoundMax
  temperature : BoundMax
  waterLevelPercent : BoundMin

/-- `const THRESHOLDS = { pH: {min: 6.5, max: 8.5}, turbidity: {max: 5},
temperature: {max: 35}, waterLevelPercent: {min: 20} }`. -/
def THRESHOLDS : Thresholds :=
  { pH := { min := 6.5, max := 8.5 }
    turbidity := { max := 5 }
    temperature := { max := 35 }
    waterLevelPercent := { min := 20 } }

/-- Per-channel status; the source uses the string literals
`"ok"`, `"warn"`, `"bad"`. -/
inductive Status where
  | ok
  | warn
  | bad
deriving DecidableEq, BEq

/-- The `status` object computed in the component body. -/
structure StatusMap where
  pH : Status
  turbidity : Status
  temperature : Status
  waterLevel : Status
deriving DecidableEq

/-- Embeds the `status` computation (`App.jsx` lines 119–124): each channel is
compared against `THRESHOLDS` on the current sample. -/
def evaluate (s : Sample) : StatusMap :=
  { pH := if THRESHOLDS.pH.min ≤ s.pH ∧ s.pH ≤ THRESHOLDS.pH.max then .ok else .bad
    turbidity := if s.turbidity ≤ THRESHOLDS.turbidity.max then .ok else .bad
    temperature := if s.temperature ≤ THRESHOLDS.temperature.max then .ok else .warn
    waterLevel := if THRESHOLDS.waterLevelPercent.min ≤ s.waterLevelPercent then .ok else .bad }

/-- Embeds `overallOk = Object.values(status).every(s => s === "ok" || s === "warn")`. -/
def overallOk (st : StatusMap) : Bool :=
  [st.pH, st.turbidity, st.temperature, st.waterLevel].all
    fun x => x == Status.ok || x == Status.warn

/-- Embeds the `alerts` computation (`App.jsx` lines 149–152): one message is
pushed per bad channel, in the order pH, turbidity, water level; temperature
has no push. -/
def alerts (s : Sample) : List String :=
  (if (evaluate s).pH = Status.bad then
      ["pH " ++ formatFixed 2 s.pH ++ " out of safe range ("
        ++ jsNumStr THRESHOLDS.pH.min ++ "-" ++ jsNumStr THRESHOLDS.pH.max ++ ")"]
    else [])
  ++ (if (evaluate s).turbidity = Status.bad then
      ["Turbidity " ++ formatFixed 2 s.turbidity ++ " NTU > "
        ++ jsNumStr THRESHOLDS.turbidity.max]
    else [])
  ++ (if (evaluate s).waterLevel = Status.bad then
      ["Water level " ++ jsNumStr s.waterLevelPercent ++ "% low (< "
        ++ jsNumStr THRESHOLDS.waterLevelPercent.min ++ "%)"]
    else [])

example : formatFixed 2 (9 : ℚ) = "9.00" := by with_unfolding_all rfl
example : formatFixed 1 (36 : ℚ) = "36.0" := by with_unfolding_all rfl
example : jsNumStr (6.5 : ℚ) = "6.5" := by with_unfolding_all rfl
example : jsNumStr (20 : ℚ) = "20" := by with_unfolding_all rfl
example : alerts ⟨0, 9, 1, 20, 50⟩ = ["pH 9.00 out of safe range (6.5-8.5)"] := by
  with_unfolding_all rfl

/-- Per-tick random draws for `nextSample`: one field per occurrence of
`rand(a, b)` (a `ℚ`, in source order) and one `Bool` per probabilistic branch
`Math.random() < p`. -/
structure TickRand where
  phTarget : ℚ
  phNoise : ℚ
  turbNoise : ℚ
  turbSpikeCoin : Bool
  turbSpike : ℚ
  tempTarget : ℚ
  tempNoise : ℚ
  levelDrop : ℚ
  levelIncCoin : Bool
  levelInc : ℚ
  levelRefillCoin : Bool
  levelRefill : ℚ

/-- Embeds the body of the `setInterval` tick callback (`App.jsx` lines
75–103): compute `nextPH`, `nextTurb`, `nextTemp`, `nextLevel` from the last
sample and build `nextPoint` with `Number(x.toFixed(d))` rounding. -/
def nextSample (last : Sample) (r : TickRand) (ts : ℤ) : Sample :=
  let nextPH := clamp (approach last.pH r.phTarget 0.08 + r.phNoise) 5.0 9.5
  let turb0 := clamp (last.turbidity + r.turbNoise) 0 20
  let nextTurb := if r.turbSpikeCoin then clamp (turb0 + r.turbSpike) 0 50 else turb0
  let nextTemp := clamp (approach last.temperature r.tempTarget 0.03 + r.tempNoise) 15 45
  let lvl0 := last.waterLevelPercent - r.levelDrop
  let lvl1 := if r.levelIncCoin then lvl0 + r.levelInc else lvl0
  let lvl2 := if r.levelRefillCoin then clamp r.levelRefill 0 100 else lvl1
  let nextLevel := clamp lvl2 0 100
  { timestamp := ts
    pH := roundTo 2 nextPH
    turbidity := roundTo 2 nextTurb
    temperature := roundTo 1 nextTemp
    waterLevelPercent := roundTo 1 nextLevel }

/-- `const HISTORY_POINTS = 40`. -/
def HISTORY_POINTS : ℕ := 40

/-- Embeds `arr.slice(-n)` for `n > 0`: the most recent `n` elements. -/
def sliceLast (n : ℕ) (l : List α) : List α := l.drop (l.length - n)

/-- Embeds `[...prevHist, nextPoint].slice(-HISTORY_POINTS)` (tick callback)
and `forced.push(refill); forced.slice(-HISTORY_POINTS)` (Force Refill):
append one sample, keep the most recent 40. -/
def appendCap (h : List Sample) (s : Sample) : List Sample :=
  sliceLast HISTORY_POINTS (h ++ [s])

/-- Per-seed-step random draws (`App.jsx` lines 59–67): each `jitter` call
contributes a delta draw and a sign coin, the level decline contributes a
draw, and the past-refill branch contributes a coin and a draw. -/
structure SeedRand where
  phD : ℚ
  phSign : Bool
  turbD : ℚ
  turbSign : Bool
  tempD : ℚ
  tempSign : Bool
  levelDrop : ℚ
  refillCoin : Bool
  refillVal : ℚ

/-- One iteration of the seed loop body (`App.jsx` lines 59–68). -/
def seedStep (prev : Sample) (r : SeedRand) (ts : ℤ) : Sample :=
  let base : Sample :=
    { timestamp := ts
      pH := clamp (jitter prev.pH r.phD r.phSign) 5.5 9.5
      turbidity := clamp (jitter prev.turbidity r.turbD r.turbSign) 0 12
      temperature := clamp (jitter prev.temperature r.tempD r.tempSign) 18 42
      waterLevelPercent := clamp (prev.waterLevelPercent - r.levelDrop) 0 100 }
  if r.refillCoin then { base with waterLevelPercent := clamp r.refillVal 0 100 } else base

/-- The seed loop (`App.jsx` lines 55–69): starting from the initial current
sample, push one `seedStep` result per iteration; the source runs exactly
`HISTORY_POINTS` iterations, here expressed as a list of that many draw/time
pairs. -/
def seedLoop (prev : Sample) : List (SeedRand × ℤ) → List Sample
  | [] => []
  | (r, ts) :: rest =>
    let p := seedStep prev r ts
    p :: seedLoop p rest

/-- The initial `current` state (`App.jsx` lines 37–43). -/
def initialCurrent : Sample :=
  { timestamp := 0, pH := 7.4, turbidity := 1.5, temperature := 28.0, waterLevelPercent := 78.5 }

/-- The mutable view state: `history` and `current`. -/
structure AppState where
  history : List Sample
  current : Sample

/-- State after seeding (`App.jsx` lines 70–71): `setHistory(h)` and
`setCurrent(h[h.length - 1])`. -/
def seededState (rs : List (SeedRand × ℤ)) : AppState :=
  { history := seedLoop initialCurrent rs
    current := (seedLoop initialCurrent rs).getLastD initialCurrent }

/-- One timer tick (`App.jsx` lines 73–108): read the last history entry
(falling back to `current` when the history is empty), generate `nextPoint`,
append with truncation, and set `current` to the new point. -/
def tickStep (st : AppState) (r : TickRand) (ts : ℤ) : AppState :=
  let last := st.history.getLastD st.current
  let np := nextSample last r ts
  { history := appendCap st.history np, current := np }

/-- Embeds the Force Refill `onClick` history update (`App.jsx` lines
206–212): copy the last element, override `waterLevelPercent` with
`clamp(rand(82,100), 0, 100)` and the timestamp, push, truncate to 40. The
source reads `forced[forced.length - 1]` without a guard; an empty history
cannot occur in the running app (seeding precedes any click) and is modelled
as leaving the history empty. -/
def forceRefill (h : List Sample) (lvl : ℚ) (ts : ℤ) : List Sample :=
  match h with
  | [] => []
  | a :: as =>
    let last := (a :: as).getLast (List.cons_ne_nil a as)
    appendCap (a :: as) { last with waterLevelPercent := clamp lvl 0 100, timestamp := ts }

/-- The Force Refill click as a state transition: only `history` is updated
(`setHistory`); `current` is untouched. -/
def refillStep (st : AppState) (lvl : ℚ) (ts : ℤ) : AppState :=
  { st with history := forceRefill st.history lvl ts }

/-- A history-extending operation occurring after seeding: a timer tick or a
Force Refill click. -/
inductive HOp where
  | tick (r : TickRand) (ts : ℤ)
  | refill (lvl : ℚ) (ts : ℤ)

/-- Apply one operation to the view state. -/
def applyOp (st : AppState) : HOp → AppState
  | .tick r ts => tickStep st r ts
  | .refill lvl ts => refillStep st lvl ts

/-- The per-channel statuses the view derives from the state: the source
computes `status` from `current` alone. -/
def viewStatus (st : AppState) : StatusMap := evaluate st.current

/-- The overall-safe flag the view derives from the state. -/
def viewOverall (st : AppState) : Bool := overallOk (evaluate st.current)

/-- The alert strings the view derives from the state. -/
def viewAlerts (st : AppState) : List String := alerts st.current

/-- The coordinates computed inside `sparkPath`'s `values.map((v, i) => ...)`
(`App.jsx` lines 128–140), separated from string formatting: for a nonempty
`values`, `max`/`min` are `Math.max(...values)` / `Math.min(...values)`,
`range = max - min || 1` (a zero range is replaced by 1, JS `||` on the falsy
number 0), `x = (i / (values.length - 1 || 1)) * w` and
`y = h - ((v - min) / range) * h`. -/
def sparkPoints (values : List ℚ) (w h : ℚ) : List (ℚ × ℚ) :=
  match values with
  | [] => []
  | v0 :: vs =>
    let mx := vs.foldl max v0
    let mn := vs.foldl min v0
    let range := if mx - mn = 0 then 1 else mx - mn
    let n := (v0 :: vs).length
    let denom : ℚ := if n - 1 = 0 then 1 else ((n - 1 : ℕ) : ℚ)
    (v0 :: vs).enum.map fun iv =>
      (((iv.1 : ℚ) / denom) * w, h - ((iv.2 - mn) / range) * h)

/-- Embeds `sparkPath` (`App.jsx` lines 128–140): `if (!values.length) return ""`,
otherwise each point becomes `` `${i === 0 ? "M" : "L"} ${x.toFixed(1)} ${y.toFixed(1)}` ``
and the pieces are joined with `" "`. The coordinate arithmetic of the map
body is factored into `sparkPoints`. -/
def sparkPath (values : List ℚ) (w h : ℚ) : String :=
  match values with
  | [] => ""
  | _ :: _ =>
    String.intercalate " "
      ((sparkPoints values w h).enum.map fun ip =>
        (if ip.1 = 0 then "M" else "L") ++ " "
          ++ formatFixed 1 ip.2.1 ++ " " ++ formatFixed 1 ip.2.2)

example : sparkPath [(3 : ℚ)] 140 36 = "M 0.0 36.0" := by with_unfolding_all rfl
example : sparkPath [(1 : ℚ), 2, 3] 100 10 = "M 0.0 10.0 L 50.0 5.0 L 100.0 0.0" := by
  with_unfolding_all rfl

/-! ## Helper lemmas -/

theorem le_clamp (v a b : ℚ) : a ≤ clamp v a b := le_max_left a _

theorem clamp_le {a b : ℚ} (v : ℚ) (hab : a ≤ b) : clamp v a b ≤ b :=
  max_le hab (min_le_left b v)

theorem clamp_le_of_le {a b c : ℚ} (v : ℚ) (ha : a ≤ c) (hv : v ≤ c) : clamp v a b ≤ c :=
  max_le ha (le_trans (min_le_right b v) hv)

theorem clamp_eq_of_mem {v a b : ℚ} (ha : a ≤ v) (hb : v ≤ b) : clamp v a b = v := by
  unfold clamp
  rw [min_eq_right hb, max_eq_right ha]

theorem roundTo_mono (d : ℕ) {a b : ℚ} (h : a ≤ b) : roundTo d a ≤ roundTo d b := by
  unfold roundTo
  have h10 : (0 : ℚ) < (10 : ℚ) ^ d := by positivity
  have hr : round (a * (10 : ℚ) ^ d) ≤ round (b * (10 : ℚ) ^ d) := by
    rw [round_eq, round_eq]
    exact Int.floor_mono (by nlinarith)
  exact (div_le_div_iff_of_pos_right h10).mpr (by exact_mod_cast hr)

/-- `roundTo d` fixes any value that is already exact at `d` decimal places. -/
theorem roundTo_fix (d : ℕ) (q : ℚ) (n : ℤ) (h : q * (10 : ℚ) ^ d = (n : ℚ)) :
    roundTo d q = q := by
  have h10 : ((10 : ℚ) ^ d) ≠ 0 := by positivity
  unfold roundTo
  rw [h, round_intCast, eq_comm, eq_div_iff h10]
  exact h

theorem roundTo_le (d : ℕ) {q c : ℚ} (n : ℤ) (hc : c * (10 : ℚ) ^ d = (n : ℚ))
    (h : q ≤ c) : roundTo d q ≤ c :=
  le_of_le_of_eq (roundTo_mono d h) (roundTo_fix d c n hc)

theorem le_roundTo (d : ℕ) {q c : ℚ} (n : ℤ) (hc : c * (10 : ℚ) ^ d = (n : ℚ))
    (h : c ≤ q) : c ≤ roundTo d q :=
  le_of_eq_of_le (roundTo_fix d c n hc).symm (roundTo_mono d h)

theorem sliceLast_length_le (n : ℕ) (l : List α) : (sliceLast n l).length ≤ n := by
  unfold sliceLast
  rw [List.length_drop]
  omega

theorem appendCap_length_le (h : List Sample) (s : Sample) :
    (appendCap h s).length ≤ HISTORY_POINTS :=
  sliceLast_length_le _ _

theorem appendCap_suffix (h : List Sample) (s : Sample) :
    List.IsSuffix (appendCap h s) (h ++ [s]) :=
  List.drop_suffix _ _

theorem appendCap_full (h : List Sample) (s : Sample) (hlen : h.length = 40) :
    appendCap h s = h.tail ++ [s] := by
  cases h with
  | nil => simp at hlen
  | cons a as =>
    show sliceLast HISTORY_POINTS ((a :: as) ++ [s]) = (a :: as).tail ++ [s]
    unfold sliceLast HISTORY_POINTS
    rw [List.length_append, hlen]
    norm_num

theorem seedLoop_length (rs : List (SeedRand × ℤ)) :
    ∀ prev : Sample, (seedLoop prev rs).length = rs.length := by
  induction rs with
  | nil => intro prev; rfl
  | cons p rest ih =>
    intro prev
    obtain ⟨r, ts⟩ := p
    simp only [seedLoop, List.length_cons, ih]

theorem applyOp_length_le (st : AppState) (op : HOp) :
    ((applyOp st op).history).length ≤ HISTORY_POINTS := by
  cases op with
  | tick r ts => exact appendCap_length_le _ _
  | refill lvl ts =>
    show (forceRefill st.history lvl ts).length ≤ HISTORY_POINTS
    unfold forceRefill
    cases st.history with
    | nil => simp [HISTORY_POINTS]
    | cons a as => exact appendCap_length_le _ _

theorem foldl_applyOp_length_le (ops : List HOp) :
    ∀ st : AppState, st.history.length ≤ HISTORY_POINTS →
      ((ops.foldl applyOp st).history).length ≤ HISTORY_POINTS := by
  induction ops with
  | nil => intro st h; exact h
  | cons op rest ih =>
    intro st _
    rw [List.foldl_cons]
    exact ih _ (applyOp_length_le st op)

/-- `getLastD` of a `drop` that leaves the list nonempty agrees with the
original `getLastD`. -/
theorem getLastD_drop {l : List α} {k : ℕ} (hk : k < l.length) (d : α) :
    (l.drop k).getLastD d = l.getLastD d := by
  induction k generalizing l with
  | zero => rfl
  | succ k ih =>
    cases l with
    | nil => simp at hk
    | cons a as =>
      have hk' : k < as.length := by
        simpa using Nat.lt_of_succ_lt_succ hk
      have hne : as ≠ [] := by
        intro h
        rw [h] at hk'
        simp at hk'
      calc ((a :: as).drop (k + 1)).getLastD d
          = (as.drop k).getLastD d := rfl
        _ = as.getLastD d := ih hk'
        _ = (a :: as).getLastD d := by
            cases as with
            | nil => exact absurd rfl hne
            | cons b bs =>
              rw [List.getLastD_eq_getLast?, List.getLastD_eq_getLast?,
                List.getLast?_cons_cons]

theorem foldl_max_const {v : ℚ} : ∀ (xs : List ℚ) (a : ℚ), (∀ x ∈ xs, x = v) → a = v →
    xs.foldl max a = v := by
  intro xs
  induction xs with
  | nil => intro a _ ha; simpa using ha
  | cons x rest ih =>
    intro a hall ha
    rw [List.foldl_cons]
    have hx : x = v := hall x (by simp)
    exact ih (max a x) (fun y hy => hall y (by simp [hy])) (by rw [hx, ha, max_self])

theorem foldl_min_const {v : ℚ} : ∀ (xs : List ℚ) (a : ℚ), (∀ x ∈ xs, x = v) → a = v →
    xs.foldl min a = v := by
  intro xs
  induction xs with
  | nil => intro a _ ha; simpa using ha
  | cons x rest ih =>
    intro a hall ha
    rw [List.foldl_cons]
    have hx : x = v := hall x (by simp)
    exact ih (min a x) (fun y hy => hall y (by simp [hy])) (by rw [hx, ha, min_self])

/-- Substring test on character lists: does `pat` occur at the head? -/
def beginsWith : List Char → List Char → Bool
  | [], _ => true
  | _ :: _, [] => false
  | p :: ps, c :: cs => p == c && beginsWith ps cs

/-- Substring test on character lists: does `pat` occur anywhere? -/
def hasSubList (pat : List Char) : List Char → Bool
  | [] => pat.isEmpty
  | c :: cs => beginsWith pat (c :: cs) || hasSubList pat cs

/-- Does the string `s` mention `pat` as a substring? -/
def strContains (s pat : String) : Bool := hasSubList pat.toList s.toList

/-- The last element appended by `appendCap` always survives the truncation. -/
theorem appendCap_getLastD (l : List Sample) (s d : Sample) :
    (appendCap l s).getLastD d = s := by
  unfold appendCap sliceLast
  rw [getLastD_drop (Nat.sub_lt (by simp) (by norm_num [HISTORY_POINTS]))]
  rw [List.getLastD_eq_getLast?, List.getLast?_concat]
  rfl

/-- Everything before the appended element in an `appendCap` result comes
unchanged from the old history. -/
theorem appendCap_dropLast_suffix (l : List Sample) (s : Sample) :
    List.IsSuffix (appendCap l s).dropLast l := by
  unfold appendCap sliceLast
  have hk : (l ++ [s]).length - HISTORY_POINTS ≤ l.length := by
    unfold HISTORY_POINTS
    simp only [List.length_append, List.length_singleton]
    omega
  rw [List.drop_append_of_le_length hk, List.dropLast_concat]
  exact List.drop_suffix _ _

/-! ## The claims -/

/-- **C1** (corrected): the claim "the stored turbidity never exceeds 20" is
false: on a spike tick the code clamps to `[0, 50]`, not `[0, 20]`. Concrete
input: previous turbidity 20, noise 0.28 (in `[-0.12, 0.28]`), spike coin
true, spike 6 (in `[2, 6]`) gives a stored turbidity of 26 > 20. -/
theorem C1_turbidity_exceeds_20 :
    ((-0.12 : ℚ) ≤ 0.28 ∧ (0.28 : ℚ) ≤ 0.28 ∧ (2 : ℚ) ≤ 6 ∧ (6 : ℚ) ≤ 6)
    ∧ (nextSample ⟨0, 7.4, 20, 28, 78.5⟩
        ⟨7.2, 0, 0.28, true, 6, 28, 0, 0.2, false, 0, false, 90⟩ 1).turbidity = 26
    ∧ ¬ (nextSample ⟨0, 7.4, 20, 28, 78.5⟩
        ⟨7.2, 0, 0.28, true, 6, 28, 0, 0.2, false, 0, false, 90⟩ 1).turbidity ≤ 20 := by
  refine ⟨by norm_num, ?_, ?_⟩ <;> with_unfolding_all decide

/-- **C1** (amended): the next turbidity is the previous turbidity plus
uniform noise in `[-0.12, 0.28]` clamped to `[0, 20]`; with probability 0.015
an extra spike in `[2, 6]` is added to that clamped value and the result is
clamped to `[0, 50]`. Hence the stored turbidity always lies in `[0, 26]`,
and never exceeds 20 on a tick without a spike. -/
theorem C1_amended_turbidity_bounds (s : Sample) (r : TickRand) (ts : ℤ)
    (hn1 : (-0.12 : ℚ) ≤ r.turbNoise) (hn2 : r.turbNoise ≤ 0.28)
    (hs1 : (2 : ℚ) ≤ r.turbSpike) (hs2 : r.turbSpike ≤ 6) :
    0 ≤ (nextSample s r ts).turbidity
    ∧ (nextSample s r ts).turbidity ≤ 26
    ∧ (r.turbSpikeCoin = false → (nextSample s r ts).turbidity ≤ 20) := by
  have ht : (nextSample s r ts).turbidity
      = roundTo 2 (if r.turbSpikeCoin
          then clamp (clamp (s.turbidity + r.turbNoise) 0 20 + r.turbSpike) 0 50
          else clamp (s.turbidity + r.turbNoise) 0 20) := rfl
  refine ⟨?_, ?_, ?_⟩
  · rw [ht]
    refine le_roundTo 2 0 (by norm_num) ?_
    cases hc : r.turbSpikeCoin
    · rw [if_neg Bool.false_ne_true]
      exact le_clamp _ _ _
    · rw [if_pos rfl]
      exact le_clamp _ _ _
  · rw [ht]
    refine roundTo_le 2 2600 (by norm_num) ?_
    cases hc : r.turbSpikeCoin
    · simp only [hc, if_neg Bool.false_ne_true]
      exact le_trans (clamp_le _ (by norm_num)) (by norm_num)
    · simp only [hc, if_pos rfl]
      refine clamp_le_of_le _ (by norm_num) ?_
      have h20 : clamp (s.turbidity + r.turbNoise) 0 20 ≤ 20 := clamp_le _ (by norm_num)
      linarith
  · intro hc
    rw [ht]
    simp only [hc, if_neg Bool.false_ne_true]
    exact roundTo_le 2 2000 (by norm_num) (clamp_le _ (by norm_num))

/-- Witness for `C1_amended_turbidity_bounds` at a concrete sample and draw. -/
theorem C1_amended_turbidity_bounds_witness :
    ((-0.12 : ℚ) ≤ 0.1 ∧ (0.1 : ℚ) ≤ 0.28 ∧ (2 : ℚ) ≤ 3 ∧ (3 : ℚ) ≤ 6)
    ∧ 0 ≤ (nextSample ⟨0, 7.4, 1.5, 28, 78.5⟩
        ⟨7.2, 0, 0.1, true, 3, 28, 0, 0.2, false, 0, false, 90⟩ 1).turbidity
    ∧ (nextSample ⟨0, 7.4, 1.5, 28, 78.5⟩
        ⟨7.2, 0, 0.1, true, 3, 28, 0, 0.2, false, 0, false, 90⟩ 1).turbidity ≤ 26 := by
  have h := C1_amended_turbidity_bounds ⟨0, 7.4, 1.5, 28, 78.5⟩
    ⟨7.2, 0, 0.1, true, 3, 28, 0, 0.2, false, 0, false, 90⟩ 1
    (by norm_num) (by norm_num) (by norm_num) (by norm_num)
  exact ⟨by norm_num, h.1, h.2.1⟩

/-- **C2** (confirmed): starting from the 40-step seeded state, any sequence
of ticks and forced refills keeps the history length at most 40; appending to
a full history drops exactly the oldest entry; and every append result is a
suffix of the old history with the new sample appended, so surviving entries
keep their order. -/
theorem C2_history_capacity (rs : List (SeedRand × ℤ)) (ops : List HOp)
    (hrs : rs.length = 40) :
    ((ops.foldl applyOp (seededState rs)).history).length ≤ 40
    ∧ (∀ (h : List Sample) (s : Sample), h.length = 40 → appendCap h s = h.tail ++ [s])
    ∧ (∀ (h : List Sample) (s : Sample), List.IsSuffix (appendCap h s) (h ++ [s])) := by
  refine ⟨?_, appendCap_full, appendCap_suffix⟩
  show ((ops.foldl applyOp (seededState rs)).history).length ≤ HISTORY_POINTS
  apply foldl_applyOp_length_le
  show (seedLoop initialCurrent rs).length ≤ HISTORY_POINTS
  rw [seedLoop_length rs initialCurrent, hrs]
  norm_num [HISTORY_POINTS]

/-- Witness for `C2_history_capacity`: a concrete 40-draw seed and one
forced-refill operation. -/
theorem C2_history_capacity_witness :
    (List.replicate 40 ((⟨0.05, false, 0.2, false, 0.1, false, 0.3, false, 90⟩ : SeedRand),
      (0 : ℤ))).length = 40
    ∧ (([HOp.refill 90 1]).foldl applyOp (seededState (List.replicate 40
        (⟨0.05, false, 0.2, false, 0.1, false, 0.3, false, 90⟩, 0)))).history.length ≤ 40 := by
  exact ⟨by simp, (C2_history_capacity _ [HOp.refill 90 1] (by simp)).1⟩

/-- **C3** (confirmed): with every other channel inside its threshold, a
temperature above 35 yields status `warn` (never `bad`) and the overall state
stays safe; temperature at or below 35 yields `ok`; and the overall flag is
true exactly when every channel is `ok` or `warn`. -/
theorem C3_temperature_warn_only (s : Sample)
    (hpl : THRESHOLDS.pH.min ≤ s.pH) (hpu : s.pH ≤ THRESHOLDS.pH.max)
    (ht : s.turbidity ≤ THRESHOLDS.turbidity.max)
    (hw : THRESHOLDS.waterLevelPercent.min ≤ s.waterLevelPercent)
    (htemp : THRESHOLDS.temperature.max < s.temperature) :
    (evaluate s).temperature = Status.warn
    ∧ (evaluate s).temperature ≠ Status.bad
    ∧ overallOk (evaluate s) = true
    ∧ (∀ s2 : Sample, s2.temperature ≤ THRESHOLDS.temperature.max →
        (evaluate s2).temperature = Status.ok)
    ∧ (∀ s2 : Sample, overallOk (evaluate s2) = true ↔
        (((evaluate s2).pH = Status.ok ∨ (evaluate s2).pH = Status.warn)
          ∧ ((evaluate s2).turbidity = Status.ok ∨ (evaluate s2).turbidity = Status.warn)
          ∧ ((evaluate s2).temperature = Status.ok ∨ (evaluate s2).temperature = Status.warn)
          ∧ ((evaluate s2).waterLevel = Status.ok ∨ (evaluate s2).waterLevel = Status.warn))) := by
  have h1 : (evaluate s).temperature = Status.warn := by
    simp [evaluate, not_le.mpr htemp]
  have h2 : (evaluate s).pH = Status.ok := by
    simp [evaluate, hpl, hpu]
  have h3 : (evaluate s).turbidity = Status.ok := by
    simp [evaluate, ht]
  have h4 : (evaluate s).waterLevel = Status.ok := by
    simp [evaluate, hw]
  refine ⟨h1, by rw [h1]; decide, ?_, ?_, ?_⟩
  · rw [overallOk, h1, h2, h3, h4]; decide
  · intro s2 hle
    simp [evaluate, hle]
  · intro s2
    rw [overallOk]
    rcases (evaluate s2) with ⟨p, t, te, w⟩
    cases p <;> cases t <;> cases te <;> cases w <;> decide

/-- Witness for `C3_temperature_warn_only`: sample with temperature 40 and
all other channels inside their thresholds. -/
theorem C3_temperature_warn_only_witness :
    (THRESHOLDS.pH.min ≤ (7 : ℚ) ∧ (7 : ℚ) ≤ THRESHOLDS.pH.max
      ∧ (1 : ℚ) ≤ THRESHOLDS.turbidity.max
      ∧ THRESHOLDS.waterLevelPercent.min ≤ (50 : ℚ)
      ∧ THRESHOLDS.temperature.max < (40 : ℚ))
    ∧ (evaluate ⟨0, 7, 1, 40, 50⟩).temperature = Status.warn
    ∧ overallOk (evaluate ⟨0, 7, 1, 40, 50⟩) = true := by
  have h := C3_temperature_warn_only ⟨0, 7, 1, 40, 50⟩
    (by norm_num [THRESHOLDS]) (by norm_num [THRESHOLDS]) (by norm_num [THRESHOLDS])
    (by norm_num [THRESHOLDS]) (by norm_num [THRESHOLDS])
  exact ⟨by norm_num [THRESHOLDS], h.1, h.2.2.1⟩

/-- **C4** (confirmed): the alerts list holds exactly one message per bad
channel among pH, turbidity and water level; the temperature field never
influences the alerts; and for the sample
`{pH: 9.0, turbidity: 1, temperature: 20, waterLevelPercent: 50}` the pH
status is bad and the single alert message mentions "9.00", "6.5" and
"8.5". -/
theorem C4_alerts_shape :
    (∀ s : Sample, (alerts s).length =
      (if (evaluate s).pH = Status.bad then 1 else 0)
      + (if (evaluate s).turbidity = Status.bad then 1 else 0)
      + (if (evaluate s).waterLevel = Status.bad then 1 else 0))
    ∧ (∀ (s : Sample) (t : ℚ), alerts { s with temperature := t } = alerts s)
    ∧ (evaluate ⟨0, 9, 1, 20, 50⟩).pH = Status.bad
    ∧ alerts ⟨0, 9, 1, 20, 50⟩ = ["pH 9.00 out of safe range (6.5-8.5)"]
    ∧ strContains ((alerts ⟨0, 9, 1, 20, 50⟩).headD "") "9.00" = true
    ∧ strContains ((alerts ⟨0, 9, 1, 20, 50⟩).headD "") "6.5" = true
    ∧ strContains ((alerts ⟨0, 9, 1, 20, 50⟩).headD "") "8.5" = true := by
  refine ⟨?_, fun s t => rfl, ?_, ?_, ?_, ?_, ?_⟩
  · intro s
    rw [alerts, List.length_append, List.length_append]
    split_ifs <;> simp
  all_goals with_unfolding_all decide

/-- **C5** (confirmed): the stored pH is the previous pH moved toward the
random target at rate 0.08, plus noise, clamped to `[5.0, 9.5]` and rounded
to 2 decimals; it therefore always lies in `[5.0, 9.5]`. -/
theorem C5_pH_bounds (s : Sample) (r : TickRand) (ts : ℤ) :
    (nextSample s r ts).pH
      = roundTo 2 (clamp (approach s.pH r.phTarget 0.08 + r.phNoise) 5.0 9.5)
    ∧ (5.0 : ℚ) ≤ (nextSample s r ts).pH
    ∧ (nextSample s r ts).pH ≤ 9.5 := by
  refine ⟨rfl, ?_, ?_⟩
  · show (5.0 : ℚ) ≤ roundTo 2 (clamp (approach s.pH r.phTarget 0.08 + r.phNoise) 5.0 9.5)
    exact le_roundTo 2 500 (by norm_num) (le_clamp _ _ _)
  · show roundTo 2 (clamp (approach s.pH r.phTarget 0.08 + r.phNoise) 5.0 9.5) ≤ 9.5
    exact roundTo_le 2 950 (by norm_num) (clamp_le _ (by norm_num))

/-- **C6** (corrected): for a single-value slice the emitted point is not the
midpoint of the drawing box: `sparkPath([3], 140, 36)` produces the point
`(0, 36)` — path `"M 0.0 36.0"` — not the midpoint `(70, 18)`. -/
theorem C6_single_point_not_midpoint :
    sparkPoints [(3 : ℚ)] 140 36 = [(0, 36)]
    ∧ sparkPath [(3 : ℚ)] 140 36 = "M 0.0 36.0"
    ∧ ((0 : ℚ), (36 : ℚ)) ≠ ((140 / 2 : ℚ), (36 / 2 : ℚ))
    ∧ "M 0.0 36.0" ≠ "M 70.0 18.0" := by
  refine ⟨?_, ?_, ?_, ?_⟩ <;> with_unfolding_all decide

/-- **C6** (amended): the path builder is total on its documented inputs. An
empty values array yields the empty path, and a single-element array divides
by no zero (both the index denominator `length - 1 || 1` and the value
denominator `max - min || 1` are replaced by 1): the single emitted point
sits at `x = 0`, `y = h` — the bottom-left corner of the drawing box, not
its midpoint. -/
theorem C6_amended_degenerate_paths :
    (∀ w h : ℚ, sparkPath [] w h = "" ∧ sparkPoints [] w h = [])
    ∧ (∀ v w h : ℚ, sparkPoints [v] w h = [(0, h)]
        ∧ sparkPath [v] w h = "M" ++ " " ++ formatFixed 1 0 ++ " " ++ formatFixed 1 h) := by
  constructor
  · intro w h
    exact ⟨rfl, rfl⟩
  · intro v w h
    have hpts : sparkPoints [v] w h = [(0, h)] := by
      simp [sparkPoints]
    refine ⟨hpts, ?_⟩
    show String.intercalate " "
      ((sparkPoints [v] w h).enum.map fun ip =>
        (if ip.1 = 0 then "M" else "L") ++ " "
          ++ formatFixed 1 ip.2.1 ++ " " ++ formatFixed 1 ip.2.2) = _
    rw [hpts]
    rfl

/-- **C7** (confirmed): the derived statuses, overall flag and alert strings
are a pure function of the current sample (thresholds are static): two states
with the same current sample yield identical outputs regardless of their
histories. -/
theorem C7_evaluation_pure (st1 st2 : AppState) (h : st1.current = st2.current) :
    viewStatus st1 = viewStatus st2
    ∧ viewOverall st1 = viewOverall st2
    ∧ viewAlerts st1 = viewAlerts st2 := by
  unfold viewStatus viewOverall viewAlerts
  rw [h]
  exact ⟨rfl, rfl, rfl⟩

/-- Witness for `C7_evaluation_pure`: two states with different histories but
the same current sample. -/
theorem C7_evaluation_pure_witness :
    (AppState.mk [] initialCurrent).current = (AppState.mk [initialCurrent] initialCurrent).current
    ∧ viewStatus (AppState.mk [] initialCurrent)
        = viewStatus (AppState.mk [initialCurrent] initialCurrent)
    ∧ viewOverall (AppState.mk [] initialCurrent)
        = viewOverall (AppState.mk [initialCurrent] initialCurrent)
    ∧ viewAlerts (AppState.mk [] initialCurrent)
        = viewAlerts (AppState.mk [initialCurrent] initialCurrent) := by
  have h := C7_evaluation_pure (AppState.mk [] initialCurrent)
    (AppState.mk [initialCurrent] initialCurrent) rfl
  exact ⟨rfl, h.1, h.2.1, h.2.2⟩

/-- **C8** (confirmed): forced refill puts the last history entry's water
level into `[82, 100]`, copies pH, turbidity and temperature from the
previous last entry, and every earlier surviving entry is an unchanged
suffix of the old history. -/
theorem C8_force_refill_frame (h : List Sample) (lvl : ℚ) (ts : ℤ)
    (hne : h ≠ []) (h82 : (82 : ℚ) ≤ lvl) (h100 : lvl ≤ 100) :
    (82 : ℚ) ≤ ((forceRefill h lvl ts).getLastD initialCurrent).waterLevelPercent
    ∧ ((forceRefill h lvl ts).getLastD initialCurrent).waterLevelPercent ≤ 100
    ∧ ((forceRefill h lvl ts).getLastD initialCurrent).pH = (h.getLastD initialCurrent).pH
    ∧ ((forceRefill h lvl ts).getLastD initialCurrent).turbidity
        = (h.getLastD initialCurrent).turbidity
    ∧ ((forceRefill h lvl ts).getLastD initialCurrent).temperature
        = (h.getLastD initialCurrent).temperature
    ∧ List.IsSuffix (forceRefill h lvl ts).dropLast h := by
  cases h with
  | nil => exact absurd rfl hne
  | cons a as =>
    have hclamp : clamp lvl 0 100 = lvl := clamp_eq_of_mem (by linarith) h100
    have hlast : (forceRefill (a :: as) lvl ts).getLastD initialCurrent
        = { (a :: as).getLast (List.cons_ne_nil a as) with
            waterLevelPercent := clamp lvl 0 100, timestamp := ts } := by
      show (appendCap (a :: as) _).getLastD initialCurrent = _
      exact appendCap_getLastD _ _ _
    have hgl : (a :: as).getLastD initialCurrent = (a :: as).getLast (List.cons_ne_nil a as) := by
      rw [List.getLastD_eq_getLast?, List.getLast?_eq_getLast (a :: as) (List.cons_ne_nil a as)]
      rfl
    refine ⟨?_, ?_, ?_, ?_, ?_, ?_⟩
    · rw [hlast]
      show (82 : ℚ) ≤ clamp lvl 0 100
      rw [hclamp]; exact h82
    · rw [hlast]
      show clamp lvl 0 100 ≤ 100
      rw [hclamp]; exact h100
    · rw [hlast, hgl]
    · rw [hlast, hgl]
    · rw [hlast, hgl]
    · show List.IsSuffix (appendCap (a :: as) _).dropLast (a :: as)
      exact appendCap_dropLast_suffix _ _

/-- Witness for `C8_force_refill_frame` on a one-entry history. -/
theorem C8_force_refill_frame_witness :
    (([initialCurrent] : List Sample) ≠ [] ∧ (82 : ℚ) ≤ 90 ∧ (90 : ℚ) ≤ 100)
    ∧ (82 : ℚ) ≤ ((forceRefill [initialCurrent] 90 1).getLastD initialCurrent).waterLevelPercent
    ∧ ((forceRefill [initialCurrent] 90 1).getLastD initialCurrent).pH
        = (([initialCurrent] : List Sample).getLastD initialCurrent).pH := by
  have h := C8_force_refill_frame [initialCurrent] 90 1 (by simp) (by norm_num) (by norm_num)
  exact ⟨⟨by simp, by norm_num, by norm_num⟩, h.1, h.2.2.1⟩

/-- **C9** (confirmed): a forced refill updates only the history: the current
sample, and with it the derived statuses, overall flag and alerts, are
unchanged; only a timer tick replaces the current sample (with the freshly
generated point). -/
theorem C9_refill_leaves_current (st : AppState) (lvl : ℚ) (ts : ℤ) :
    (refillStep st lvl ts).current = st.current
    ∧ viewStatus (refillStep st lvl ts) = viewStatus st
    ∧ viewOverall (refillStep st lvl ts) = viewOverall st
    ∧ viewAlerts (refillStep st lvl ts) = viewAlerts st
    ∧ ∀ (r : TickRand) (ts2 : ℤ),
        (tickStep st r ts2).current = nextSample (st.history.getLastD st.current) r ts2 :=
  ⟨rfl, rfl, rfl, rfl, fun _ _ => rfl⟩

/-- **C10** (confirmed): on a slice of length at least 2 whose values are all
equal, every emitted sparkline point has `y = h` (the bottom edge): the zero
observed range is replaced by 1 instead of centring the flat line. -/
theorem C10_flat_series_bottom_edge (values : List ℚ) (v w h : ℚ)
    (hlen : 2 ≤ values.length) (hall : ∀ x ∈ values, x = v) :
    ∀ p ∈ sparkPoints values w h, p.2 = h := by
  cases values with
  | nil => simp at hlen
  | cons v0 vs =>
    intro p hp
    have hv0 : v0 = v := hall v0 (by simp)
    have hmx : vs.foldl max v0 = v :=
      foldl_max_const vs v0 (fun x hx => hall x (by simp [hx])) hv0
    have hmn : vs.foldl min v0 = v :=
      foldl_min_const vs v0 (fun x hx => hall x (by simp [hx])) hv0
    simp only [sparkPoints, hmx, hmn, List.mem_map] at hp
    obtain ⟨⟨i, x⟩, hmem, rfl⟩ := hp
    have hx : x = v := hall x (List.get?_mem (List.mk_mem_enum_iff_get?.mp hmem))
    simp [hx, sub_self]

/-- Witness for `C10_flat_series_bottom_edge` on the flat slice `[2, 2]`. -/
theorem C10_flat_series_bottom_edge_witness :
    (2 ≤ ([(2 : ℚ), 2]).length ∧ ∀ x ∈ [(2 : ℚ), 2], x = 2)
    ∧ ∀ p ∈ sparkPoints [(2 : ℚ), 2] 140 36, p.2 = 36 := by
  refine ⟨⟨by norm_num, ?_⟩, ?_⟩
  · intro x hx
    simpa using hx
  · exact C10_flat_series_bottom_edge [(2 : ℚ), 2] 2 140 36 (by norm_num)
      (by intro x hx; simpa using hx)

end HydroSense
